import Mathlib

/-!
# Verification of the `terse` URL shortener

Shallow embedding of the core logic of the `terse` repository:

* `internal/db/crud.go` — the DynamoDB storage adapter (`Client.Get`,
  `Client.Put`, `Client.Delete`, `Client.List`);
* `internal/api/handlers.go` — the HTTP handlers (`Redirect`,
  `CreateRedirect`, `ListRedirects`, `DeleteRedirect`), request validation
  (`CreateShortURLRequest.Bind`) and key generation (`generateKey`).

The DynamoDB backend is modelled as an association list from keys to stored
items; each backend call that can fail over the network takes an explicit
boolean flag saying whether that call fails.  The stdlib pieces the code
leans on (`net/url.ParseRequestURI`, `crypto/rand.Int`, `encoding/json`
marshalling of nil slices) are modelled from their documented contracts,
since they are external collaborators, not repository code.
-/

namespace Terse

/-! ## JSON values, as produced by Go `encoding/json` marshalling -/

/-- A JSON value.  `null` is what Go `encoding/json` produces for a nil
slice; a non-nil slice produces `arr`. -/
inductive Json where
  | null : Json
  | str : String → Json
  | num : Int → Json
  | arr : List Json → Json
  | obj : List (String × Json) → Json
deriving Repr

/-! ## Data model (`internal/db/db.go`, `internal/store`) -/

/-- `db.URLItem` — a shortened URL entry as persisted in DynamoDB. -/
structure URLItem where
  /-- `ID` (`dynamodbav:"id"`), the partition key. -/
  id : String
  /-- `RedirectURL` (`dynamodbav:"redirect_url"`). -/
  redirect_url : String
  /-- `AccessCount` (`dynamodbav:"access_count"`). -/
  access_count : Int
  /-- `CreatedAt` (`dynamodbav:"created_at"`), Unix timestamp. -/
  created_at : Int
deriving Repr, DecidableEq

/-- `store.UrlObject` — the record shape the handlers see. -/
structure UrlObject where
  key : String
  url : String
  redirectCount : Int
deriving Repr, DecidableEq

/-- The DynamoDB table, modelled as an association list keyed by `id`.
Lookup returns the first binding for a key. -/
def Backend := List (String × URLItem)

/-- Reading an item by partition key (DynamoDB `GetItem`). -/
def lookupItem : Backend → String → Option URLItem
  | [], _ => none
  | (k, it) :: rest, key => if k = key then some it else lookupItem rest key

/-- Removing an item (DynamoDB `DeleteItem`): removes every binding for
the key; removing an absent key is a no-op, not an error. -/
def eraseItem : Backend → String → Backend
  | [], _ => []
  | (k, it) :: rest, key =>
    if k = key then eraseItem rest key else (k, it) :: eraseItem rest key

/-- Writing an item (DynamoDB `PutItem`): unconditional overwrite of
whatever was stored under the same partition key. -/
def putItem (b : Backend) (key : String) (it : URLItem) : Backend :=
  (key, it) :: eraseItem b key

/-- The atomic `ADD access_count 1` update expression applied to a key. -/
def incrAccess : Backend → String → Backend
  | [], _ => []
  | (k, it) :: rest, key =>
    if k = key then (k, { it with access_count := it.access_count + 1 }) :: incrAccess rest key
    else (k, it) :: incrAccess rest key

/-- Errors surfaced by the storage adapter (the handlers only ever test
them for being non-nil, so the wrapped message is reduced to a tag). -/
inductive StoreErr where
  | getItemFailed : StoreErr
  | putItemFailed : StoreErr
  | deleteItemFailed : StoreErr
  | scanFailed : StoreErr
deriving Repr, DecidableEq

/-! ## Storage adapter (`internal/db/crud.go`)

Each operation takes boolean flags modelling whether the corresponding
DynamoDB network calls fail.  Marshal/unmarshal of the typed `URLItem`
cannot fail in the model because the backend stores typed items. -/

/-- `Client.Get`: read the item; when found, as a side effect issue an
`ADD access_count 1` update.  If the update fails the error is only
logged (in debug mode) and the read still succeeds, returning the item
as read before the increment.  A missing item yields the zero
`store.UrlObject` and no error. -/
def clientGet (b : Backend) (key : String) (getFails updFails : Bool) :
    Except StoreErr UrlObject × Backend :=
  if getFails then (Except.error StoreErr.getItemFailed, b)
  else
    match lookupItem b key with
    | none => (Except.ok ⟨"", "", 0⟩, b)
    | some item =>
      let b2 := if updFails then b else incrAccess b key
      (Except.ok ⟨item.id, item.redirect_url, item.access_count⟩, b2)

/-- `Client.Put`: build a fresh `URLItem` with `AccessCount = 0` and
`CreatedAt = now`, then `PutItem` it (unconditional overwrite). -/
def clientPut (b : Backend) (key value : String) (now : Int) (putFails : Bool) :
    Except StoreErr Unit × Backend :=
  let item : URLItem := ⟨key, value, 0, now⟩
  if putFails then (Except.error StoreErr.putItemFailed, b)
  else (Except.ok (), putItem b key item)

/-- `Client.Delete`: `DeleteItem` on the key; deleting an absent key is
not an error. -/
def clientDelete (b : Backend) (key : String) (delFails : Bool) :
    Except StoreErr Unit × Backend :=
  if delFails then (Except.error StoreErr.deleteItemFailed, b)
  else (Except.ok (), eraseItem b key)

/-- `Client.List`: full table scan, each item converted to a
`store.UrlObject`. -/
def clientList (b : Backend) (scanFails : Bool) : Except StoreErr (List UrlObject) :=
  if scanFails then Except.error StoreErr.scanFailed
  else Except.ok (b.map (fun p => ⟨p.2.id, p.2.redirect_url, p.2.access_count⟩))

/-! ## Key generation (`internal/api/handlers.go`) -/

/-- The 62-character alphabet used for key generation, exactly as in the
source. -/
def alphanumeric : String :=
  "abcdefghijklmnopqrstuvwxyzABCDEFGHIJKLMNOPQRSTUVWXYZ0123456789"

/-- The characters of `alphanumeric`, for indexing. -/
def alphaChars : List Char := alphanumeric.toList

/-- A random source: one entry per call to `crypto/rand.Int`.  `none`
models a failure of the secure random reader (the call returns an
error); `some r` models a successful draw with raw value `r`.  The
`crypto/rand.Int(reader, max)` contract returns a uniform value in
`[0, max)`, modelled by reducing the raw value modulo the requested
bound. -/
def RandSource := List (Option Nat)

/-- Outcome of `generateKey`.  Go returns `(string, error)`; `srcErr`
carries the string returned alongside a non-nil error, and `oob` marks
the (unreachable) case where an index falls outside the alphabet, which
in Go would panic on the string index expression. -/
inductive GenResult where
  | ok : String → GenResult
  | srcErr : String → GenResult
  | oob : GenResult
deriving Repr, DecidableEq

/-- The loop body of `generateKey`: draw `fuel` indices from the random
source, each via `rand.Int(reader, len(alphanumeric))`, and collect the
selected alphabet characters in order (position `i` of the key is the
`i`-th draw, as in the Go loop over `key[i]`). -/
def genChars : Nat → List (Option Nat) → GenResult
  | 0, _ => GenResult.ok ""
  | _ + 1, [] => GenResult.srcErr ""
  | _ + 1, none :: _ => GenResult.srcErr ""
  | n + 1, some r :: rest =>
    match alphaChars.get? (r % alphanumeric.length) with
    | none => GenResult.oob
    | some c =>
      match genChars n rest with
      | GenResult.ok s => GenResult.ok (String.mk (c :: s.toList))
      | e => e

/-- `generateKey` — a random 16-character alphanumeric string.  On a
random-source error Go returns `("", err)` without partial output. -/
def generateKey (src : List (Option Nat)) : GenResult :=
  genChars 16 src

/-! ## Key pattern (`keyPattern = ^[a-zA-Z0-9]{16}$`) -/

/-- Membership in the regex character class `[a-zA-Z0-9]`. -/
def isAlphanumChar (c : Char) : Bool :=
  (decide (97 ≤ c.toNat) && decide (c.toNat ≤ 122)) ||
  (decide (65 ≤ c.toNat) && decide (c.toNat ≤ 90)) ||
  (decide (48 ≤ c.toNat) && decide (c.toNat ≤ 57))

/-- `keyPattern.MatchString`: the key is exactly 16 characters, all in
`[a-zA-Z0-9]`. -/
def keyPatternMatch (s : String) : Bool :=
  (s.toList.length == 16) && s.toList.all isAlphanumChar

/-! ## URL parsing (`net/url.ParseRequestURI`, external stdlib)

Model of the Go stdlib parser, restricted to the two fields the
handlers read (`Scheme` and `Host`) and to `viaRequest = true`.
Percent-escape and host-character validation inside `parseAuthority`
are elided (the theorems below never exercise them); everything else —
control-character rejection, the empty-URL error, scheme extraction and
lowercasing, query stripping, the opaque/rootless case, the
`invalid URI for request` error, and authority/userinfo splitting —
follows the stdlib control flow. -/

/-- The fields of Go `url.URL` that `Bind` reads. -/
structure GoURL where
  scheme : String
  host : String
deriving Repr, DecidableEq

/-- A byte in `[0x00, 0x20)` or equal to `0x7f` (Go
`stringContainsCTLByte`). -/
def containsCTL (s : List Char) : Bool :=
  s.any (fun c => decide (c.toNat < 32) || (c.toNat == 127))

/-- First character class of `getScheme`: ASCII letters. -/
def isSchemeAlpha (c : Char) : Bool :=
  (decide (97 ≤ c.toNat) && decide (c.toNat ≤ 122)) ||
  (decide (65 ≤ c.toNat) && decide (c.toNat ≤ 90))

/-- Second character class of `getScheme`: digits and `+ - .`, allowed
after the first character. -/
def isSchemeExtra (c : Char) : Bool :=
  (decide (48 ≤ c.toNat) && decide (c.toNat ≤ 57)) ||
  (c == '+') || (c == '-') || (c == '.')

/-- Go `getScheme`: scan for a `scheme:` prefix.  `none` is the
`missing protocol scheme` error (a leading colon); `some (s, rest)`
with `s = []` means no scheme was found and `rest` is the whole input
again. -/
def getScheme (orig : List Char) : List Char → List Char → Option (List Char × List Char)
  | _, [] => some ([], orig)
  | acc, c :: cs =>
    if isSchemeAlpha c then getScheme orig (acc ++ [c]) cs
    else if isSchemeExtra c then
      if acc.isEmpty then some ([], orig) else getScheme orig (acc ++ [c]) cs
    else if c = ':' then
      if acc.isEmpty then none else some (acc, cs)
    else some ([], orig)

/-- Go `strings.Cut`: split at the first occurrence of `c`; when `c` is
absent the second component is empty. -/
def goCut : List Char → Char → List Char × List Char
  | [], _ => ([], [])
  | x :: xs, c =>
    if x = c then ([], xs)
    else
      let p := goCut xs c
      (x :: p.1, p.2)

/-- Go `parseAuthority`: the host is what follows the last `@` of the
authority (the userinfo before it is dropped). -/
def hostAfterUserinfo (authority : List Char) : List Char :=
  (authority.reverse.takeWhile (fun c => c ≠ '@')).reverse

/-- Model of `url.ParseRequestURI` (i.e. `parse` with
`viaRequest = true`): `none` is a parse error.  Query stripping merges
the `ForceQuery` special case with the general cut at the first `?`,
which agree on everything before the `?`. -/
def parseRequestURI (raw : String) : Option GoURL :=
  let rawL := raw.toList
  if containsCTL rawL then none
  else if rawL = [] then none
  else if rawL = ['*'] then some ⟨"", ""⟩
  else
    match getScheme rawL [] rawL with
    | none => none
    | some (schemeL, rest0) =>
      let scheme := String.mk (schemeL.map Char.toLower)
      let rest := (goCut rest0 '?').1
      match rest with
      | '/' :: '/' :: afterSlashes =>
        if scheme = "" then some ⟨scheme, ""⟩
        else
          let auth := (goCut afterSlashes '/').1
          some ⟨scheme, String.mk (hostAfterUserinfo auth)⟩
      | '/' :: _ => some ⟨scheme, ""⟩
      | _ =>
        if scheme = "" then none
        else some ⟨scheme, ""⟩

/-! ## Request/response shapes (`internal/api/handlers.go`) -/

/-- `CreateShortURLRequest` — the decoded POST body.  A JSON body
without `expires_in` decodes to the zero value `0`. -/
structure CreateShortURLRequest where
  url : String
  expiresIn : Int
deriving Repr, DecidableEq

/-- `CreateShortURLResponse`. -/
structure CreateShortURLResponse where
  shortURL : String
deriving Repr, DecidableEq

/-- `RedirectURLItem` — one entry of the list response. -/
structure RedirectURLItem where
  key : String
  url : String
  redirectCount : Int
deriving Repr, DecidableEq

/-- `DeleteRedirectResponse`. -/
structure DeleteRedirectResponse where
  message : String
deriving Repr, DecidableEq

/-- What a handler writes to the `http.ResponseWriter`. -/
inductive HttpResponse where
  /-- `http.Redirect(w, r, url, http.StatusFound)`: a 302 with the
  `Location` header. -/
  | redirectFound : String → HttpResponse
  /-- `http.Error(w, message, status)`: a plain-text error body. -/
  | httpError : Nat → String → HttpResponse
  /-- `http.NotFound(w, r)`: the standard 404 page. -/
  | notFoundPage : HttpResponse
  /-- `respondJSON`: `WriteHeader(status)` then `render.JSON(w, r, body)`. -/
  | jsonResp : Nat → Json → HttpResponse
deriving Repr

/-- The HTTP status code of a response (`http.StatusFound = 302`,
`http.NotFound` writes 404). -/
def HttpResponse.statusCode : HttpResponse → Nat
  | HttpResponse.redirectFound _ => 302
  | HttpResponse.httpError s _ => s
  | HttpResponse.notFoundPage => 404
  | HttpResponse.jsonResp s _ => s

/-- `UserHandler.handleError`: log server-side, answer a generic
`500 Internal Server Error` whatever the error was. -/
def handleErrorResp : HttpResponse :=
  HttpResponse.httpError 500 "Internal Server Error"

/-- `encoding/json` marshalling of `CreateShortURLResponse`
(`short_url,omitempty`: the field is dropped when empty). -/
def marshalCreateResp (c : CreateShortURLResponse) : Json :=
  if c.shortURL = "" then Json.obj []
  else Json.obj [("short_url", Json.str c.shortURL)]

/-- `encoding/json` marshalling of one `RedirectURLItem`. -/
def marshalItem (it : RedirectURLItem) : Json :=
  Json.obj [("key", Json.str it.key), ("url", Json.str it.url),
    ("redirect_count", Json.num it.redirectCount)]

/-- `encoding/json` marshalling of `RedirectURLListResponse`.  The
`URLs` slice is `Option (List _)`: `none` is a Go nil slice, which
marshals to JSON `null`; `some xs` is a non-nil slice, which marshals
to a JSON array. -/
def marshalListResp (urls : Option (List RedirectURLItem)) : Json :=
  Json.obj [("urls", match urls with
    | none => Json.null
    | some xs => Json.arr (xs.map marshalItem))]

/-- `encoding/json` marshalling of `DeleteRedirectResponse`. -/
def marshalDeleteResp (m : DeleteRedirectResponse) : Json :=
  Json.obj [("message", Json.str m.message)]

/-- Go `append` on a possibly-nil slice: the result is always non-nil. -/
def goAppend {α : Type} (s : Option (List α)) (x : α) : Option (List α) :=
  some (s.getD [] ++ [x])

/-! ## Handlers (`internal/api/handlers.go`) -/

/-- `CreateShortURLRequest.Bind` — request validation, run by
`render.Bind` after decoding.  `some msg` is a validation error with
its message; `none` means the request is valid. -/
def CreateShortURLRequest.Bind (c : CreateShortURLRequest) : Option String :=
  if c.url = "" then some "url is required"
  else
    match parseRequestURI c.url with
    | none => some "invalid url format"
    | some parsedURL =>
      if parsedURL.scheme ≠ "http" ∧ parsedURL.scheme ≠ "https" then
        some "url must use http or https scheme"
      else if parsedURL.host = "" then some "url must have a valid host"
      else none

/-- The key actually used by `CreateRedirect`: the Go code discards the
error (`key, _ := generateKey()`), so a failed generation leaves the
returned `""`.  The `oob` case never occurs (proved below) and would be
a panic in Go. -/
def goKey : GenResult → String
  | GenResult.ok k => k
  | GenResult.srcErr s => s
  | GenResult.oob => ""

/-- `UserHandler.Redirect` (`GET /g/{key}`): reject keys that do not
match `keyPattern` with a 400 before any storage call; then `Get`,
mapping a storage error to 500, a missing record (empty URL) to 404 and
a found record to a 302 with `Location` set to its URL. -/
def Redirect (key : String) (b : Backend) (getFails updFails : Bool) :
    HttpResponse × Backend :=
  if keyPatternMatch key = false then
    (HttpResponse.httpError 400 "Invalid key format", b)
  else
    match clientGet b key getFails updFails with
    | (Except.error _, b2) => (HttpResponse.httpError 500 "Internal Server Error", b2)
    | (Except.ok value, b2) =>
      if value.url = "" then (HttpResponse.notFoundPage, b2)
      else (HttpResponse.redirectFound value.url, b2)

/-- `UserHandler.CreateRedirect` (`POST /manage/`): bind/validate the
body (errors funnel through `handleError`), generate a key with the
error discarded, `Put`, and on success answer
`201 {"short_url": host + "/g/" + key}`. -/
def CreateRedirect (req : CreateShortURLRequest) (src : List (Option Nat))
    (host : String) (now : Int) (b : Backend) (putFails : Bool) :
    HttpResponse × Backend :=
  match req.Bind with
  | some _ => (handleErrorResp, b)
  | none =>
    let key := goKey (generateKey src)
    match clientPut b key req.url now putFails with
    | (Except.error _, b2) => (handleErrorResp, b2)
    | (Except.ok _, b2) =>
      let shortURL := host ++ "/g/" ++ key
      (HttpResponse.jsonResp 201 (marshalCreateResp ⟨shortURL⟩), b2)

/-- `UserHandler.ListRedirects` (`GET /manage/`): `List`, then append
each record to the (initially nil) `URLs` slice and answer 200. -/
def ListRedirects (b : Backend) (scanFails : Bool) : HttpResponse :=
  match clientList b scanFails with
  | Except.error _ => handleErrorResp
  | Except.ok data =>
    let urls := data.foldl
      (fun acc it => goAppend acc ⟨it.key, it.url, it.redirectCount⟩)
      (none : Option (List RedirectURLItem))
    HttpResponse.jsonResp 200 (marshalListResp urls)

/-- `UserHandler.DeleteRedirect` (`DELETE /manage/{key}`): no key
format validation; `Delete`, then 200 with a fixed message. -/
def DeleteRedirect (key : String) (b : Backend) (delFails : Bool) :
    HttpResponse × Backend :=
  match clientDelete b key delFails with
  | (Except.error _, b2) => (handleErrorResp, b2)
  | (Except.ok _, b2) =>
    (HttpResponse.jsonResp 200 (marshalDeleteResp ⟨"Redirect deleted successfully"⟩), b2)

/-! ## Helper lemmas -/

theorem alphaChars_all_alnum : alphaChars.all isAlphanumChar = true := by decide

theorem alphaChars_length : alphaChars.length = 62 := by decide

theorem alphanumeric_length : alphanumeric.length = 62 := by decide

/-- Every character drawn from the alphabet is in `[a-zA-Z0-9]`. -/
theorem mem_alphaChars_alnum {c : Char} (hc : c ∈ alphaChars) :
    isAlphanumChar c = true :=
  List.all_eq_true.mp alphaChars_all_alnum c hc

/-- The index passed to the alphabet is always in bounds, so the
lookup succeeds. -/
theorem alphaChars_get?_isSome (r : Nat) :
    ∃ c, alphaChars.get? (r % alphanumeric.length) = some c := by
  have hlt : r % alphanumeric.length < alphaChars.length := by
    rw [alphaChars_length, alphanumeric_length]
    exact Nat.mod_lt r (by norm_num)
  cases hget : alphaChars.get? (r % alphanumeric.length) with
  | none => exact absurd (List.get?_eq_none.mp hget) (Nat.not_le.mpr hlt)
  | some c => exact ⟨c, rfl⟩

/-- A successful `genChars n` run yields `n` characters, all from the
alphabet's character class. -/
theorem genChars_ok_spec :
    ∀ (n : Nat) (src : List (Option Nat)) (s : String),
      genChars n src = GenResult.ok s →
      s.toList.length = n ∧ ∀ c ∈ s.toList, isAlphanumChar c = true := by
  intro n
  induction n with
  | zero =>
    intro src s h
    simp only [genChars] at h
    cases h
    exact ⟨rfl, by intro c hc; cases hc⟩
  | succ m ih =>
    intro src s h
    match src with
    | [] => simp only [genChars] at h; exact GenResult.noConfusion h
    | none :: _ => simp only [genChars] at h; exact GenResult.noConfusion h
    | some r :: rest =>
      simp only [genChars] at h
      obtain ⟨c, hget⟩ := alphaChars_get?_isSome r
      rw [hget] at h
      cases htail : genChars m rest with
      | ok s0 =>
        rw [htail] at h
        cases h
        obtain ⟨hlen, hall⟩ := ih rest s0 htail
        refine ⟨by simpa using hlen, ?_⟩
        intro d hd
        rcases List.mem_cons.mp (by simpa using hd) with hdc | hds
        · exact hdc ▸ mem_alphaChars_alnum (List.get?_mem hget)
        · exact hall d hds
      | srcErr s0 => rw [htail] at h; cases h
      | oob => rw [htail] at h; cases h

/-- `genChars` never reports an out-of-bounds index. -/
theorem genChars_ne_oob :
    ∀ (n : Nat) (src : List (Option Nat)), genChars n src ≠ GenResult.oob := by
  intro n
  induction n with
  | zero => intro src h; simp only [genChars] at h; exact GenResult.noConfusion h
  | succ m ih =>
    intro src h
    match src with
    | [] => simp only [genChars] at h; exact GenResult.noConfusion h
    | none :: _ => simp only [genChars] at h; exact GenResult.noConfusion h
    | some r :: rest =>
      simp only [genChars] at h
      obtain ⟨c, hget⟩ := alphaChars_get?_isSome r
      rw [hget] at h
      cases htail : genChars m rest with
      | ok s0 => rw [htail] at h; exact GenResult.noConfusion h
      | srcErr s0 => rw [htail] at h; exact GenResult.noConfusion h
      | oob => exact ih rest htail

/-- When `genChars` reports a random-source error, the string returned
alongside it is empty. -/
theorem genChars_srcErr_empty :
    ∀ (n : Nat) (src : List (Option Nat)) (s : String),
      genChars n src = GenResult.srcErr s → s = "" := by
  intro n
  induction n with
  | zero => intro src s h; simp only [genChars] at h; exact GenResult.noConfusion h
  | succ m ih =>
    intro src s h
    match src with
    | [] => simp only [genChars] at h; cases h; rfl
    | none :: _ => simp only [genChars] at h; cases h; rfl
    | some r :: rest =>
      simp only [genChars] at h
      obtain ⟨c, hget⟩ := alphaChars_get?_isSome r
      rw [hget] at h
      cases htail : genChars m rest with
      | ok s0 => rw [htail] at h; exact GenResult.noConfusion h
      | srcErr s0 => rw [htail] at h; cases h; exact ih rest s htail
      | oob => rw [htail] at h; exact GenResult.noConfusion h

/-- A successfully generated key matches `^[a-zA-Z0-9]{16}$`. -/
theorem generateKey_ok_matches {src : List (Option Nat)} {k : String}
    (h : generateKey src = GenResult.ok k) : keyPatternMatch k = true := by
  obtain ⟨hlen, hall⟩ := genChars_ok_spec 16 src k h
  simp only [keyPatternMatch, Bool.and_eq_true, beq_iff_eq, List.all_eq_true]
  exact ⟨hlen, hall⟩

/-- After a `putItem`, the key reads back the freshly written item,
whatever was stored before. -/
theorem lookupItem_putItem_self (b : Backend) (key : String) (it : URLItem) :
    lookupItem (putItem b key it) key = some it := by
  simp [putItem, lookupItem]

/-- An `eraseItem` leaves lookups of other keys unchanged. -/
theorem lookupItem_eraseItem_ne (b : Backend) (key k2 : String) (h : k2 ≠ key) :
    lookupItem (eraseItem b key) k2 = lookupItem b k2 := by
  induction b with
  | nil => rfl
  | cons hd tl ih =>
    cases hd with
    | mk k1 it1 =>
      by_cases hk : k1 = key
      · subst hk
        have hne : ¬ k1 = k2 := fun hc => h hc.symm
        simp only [eraseItem, if_pos rfl, lookupItem, if_neg hne]
        exact ih
      · simp only [eraseItem, if_neg hk, lookupItem]
        by_cases h2 : k1 = k2
        · simp only [if_pos h2]
        · simp only [if_neg h2]; exact ih

/-- A `putItem` does not disturb other keys. -/
theorem lookupItem_putItem_ne (b : Backend) (key k2 : String) (it : URLItem)
    (h : k2 ≠ key) :
    lookupItem (putItem b key it) k2 = lookupItem b k2 := by
  have hkey : ¬ key = k2 := fun hc => h hc.symm
  simp only [putItem, lookupItem, if_neg hkey]
  exact lookupItem_eraseItem_ne b key k2 h

/-- After an `eraseItem`, the key is gone. -/
theorem lookupItem_eraseItem_self (b : Backend) (key : String) :
    lookupItem (eraseItem b key) key = none := by
  induction b with
  | nil => rfl
  | cons hd tl ih =>
    cases hd with
    | mk k1 it1 =>
      by_cases hk : k1 = key
      · simp only [eraseItem, if_pos hk]; exact ih
      · simp only [eraseItem, if_neg hk, lookupItem, if_neg hk]; exact ih

/-- The atomic increment bumps the stored `access_count` of the key by
exactly one. -/
theorem lookupItem_incrAccess_self (b : Backend) (key : String) (it : URLItem)
    (h : lookupItem b key = some it) :
    lookupItem (incrAccess b key) key
      = some { it with access_count := it.access_count + 1 } := by
  induction b with
  | nil => exact Option.noConfusion h
  | cons hd tl ih =>
    cases hd with
    | mk k1 it1 =>
      by_cases hk : k1 = key
      · simp only [lookupItem, if_pos hk] at h
        cases h
        simp only [incrAccess, if_pos hk, lookupItem, if_pos hk]
      · simp only [lookupItem, if_neg hk] at h
        simp only [incrAccess, if_neg hk, lookupItem, if_neg hk]
        exact ih h

/-- The atomic increment does not disturb other keys. -/
theorem lookupItem_incrAccess_ne (b : Backend) (key k2 : String) (h : k2 ≠ key) :
    lookupItem (incrAccess b key) k2 = lookupItem b k2 := by
  induction b with
  | nil => rfl
  | cons hd tl ih =>
    cases hd with
    | mk k1 it1 =>
      by_cases hk : k1 = key
      · have hne : ¬ k1 = k2 := by rw [hk]; exact fun hc => h hc.symm
        simp only [incrAccess, if_pos hk, lookupItem, if_neg hne]
        exact ih
      · simp only [incrAccess, if_neg hk, lookupItem]
        by_cases h2 : k1 = k2
        · simp only [if_pos h2]
        · simp only [if_neg h2]; exact ih

/-- A string that parses as a request URI is non-empty. -/
theorem parseRequestURI_ne_empty {u : String} {p : GoURL}
    (h : parseRequestURI u = some p) : u ≠ "" := by
  intro hu
  rw [hu] at h
  exact Option.noConfusion h

/-- A URL that parses with scheme `http`/`https` and a non-empty host
passes `CreateShortURLRequest.Bind`. -/
theorem Bind_eq_none {u : String} {p : GoURL} (e : Int)
    (hp : parseRequestURI u = some p)
    (hs : p.scheme = "http" ∨ p.scheme = "https") (hh : p.host ≠ "") :
    CreateShortURLRequest.Bind ⟨u, e⟩ = none := by
  have hu : u ≠ "" := parseRequestURI_ne_empty hp
  simp only [CreateShortURLRequest.Bind, if_neg hu, hp]
  have hcond : ¬ (p.scheme ≠ "http" ∧ p.scheme ≠ "https") := by
    rcases hs with h | h <;> simp [h]
  rw [if_neg hcond, if_neg hh]

/-! ## Claim theorems -/

/-- **C1**: For every URL `u` with scheme http or https and a non-empty
host, a `CreateRedirect` request with body `{"url": u}` succeeds with
201 and the key it stores, and a subsequent `Redirect` request on that
key (storage healthy, record present) responds 302 with the `Location`
header equal to `u`. -/
theorem claim_C1_create_then_redirect (u : String) (p : GoURL)
    (hp : parseRequestURI u = some p)
    (hs : p.scheme = "http" ∨ p.scheme = "https") (hh : p.host ≠ "")
    (e : Int) (src : List (Option Nat)) (k : String)
    (hk : generateKey src = GenResult.ok k)
    (host : String) (now : Int) (b : Backend) :
    (CreateRedirect ⟨u, e⟩ src host now b false).fst
        = HttpResponse.jsonResp 201 (marshalCreateResp ⟨host ++ "/g/" ++ k⟩) ∧
    (CreateRedirect ⟨u, e⟩ src host now b false).snd
        = putItem b k ⟨k, u, 0, now⟩ ∧
    (Redirect k (CreateRedirect ⟨u, e⟩ src host now b false).snd false false).fst
        = HttpResponse.redirectFound u := by
  have hbind := Bind_eq_none e hp hs hh
  have hmatch : keyPatternMatch k = true := generateKey_ok_matches hk
  have hne : ¬ keyPatternMatch k = false := by simp [hmatch]
  have hu : u ≠ "" := parseRequestURI_ne_empty hp
  have hcreate : CreateRedirect ⟨u, e⟩ src host now b false
      = (HttpResponse.jsonResp 201 (marshalCreateResp ⟨host ++ "/g/" ++ k⟩),
         putItem b k ⟨k, u, 0, now⟩) := by
    simp [CreateRedirect, hbind, hk, goKey, clientPut]
  have hred : Redirect k (putItem b k ⟨k, u, 0, now⟩) false false
      = (HttpResponse.redirectFound u,
         incrAccess (putItem b k ⟨k, u, 0, now⟩) k) := by
    simp [Redirect, if_neg hne, clientGet, lookupItem_putItem_self, hu]
  exact ⟨by rw [hcreate], by rw [hcreate], by rw [hcreate, hred]⟩

/-- Witness for C1 at `u = "https://example.com/page"` with a random
source of sixteen zero draws (key `aaaaaaaaaaaaaaaa`). -/
theorem claim_C1_witness :
    (CreateRedirect ⟨"https://example.com/page", 0⟩ (List.replicate 16 (some 0))
        "host" 7 [] false).fst
        = HttpResponse.jsonResp 201
            (marshalCreateResp ⟨"host" ++ "/g/" ++ "aaaaaaaaaaaaaaaa"⟩) ∧
    (CreateRedirect ⟨"https://example.com/page", 0⟩ (List.replicate 16 (some 0))
        "host" 7 [] false).snd
        = putItem [] "aaaaaaaaaaaaaaaa"
            ⟨"aaaaaaaaaaaaaaaa", "https://example.com/page", 0, 7⟩ ∧
    (Redirect "aaaaaaaaaaaaaaaa"
        (CreateRedirect ⟨"https://example.com/page", 0⟩ (List.replicate 16 (some 0))
          "host" 7 [] false).snd false false).fst
        = HttpResponse.redirectFound "https://example.com/page" :=
  claim_C1_create_then_redirect "https://example.com/page" ⟨"https", "example.com"⟩
    rfl (Or.inr rfl) (by decide) 0 (List.replicate 16 (some 0)) "aaaaaaaaaaaaaaaa"
    rfl "host" 7 []

/-- **C2** (amended): a `CreateRedirect` request whose body fails
validation is answered with the generic `500 Internal Server Error`
(every handler error funnels through the shared `handleError`
responder, which always answers 500 — not the claimed 400), and the
Storage Adapter's `Put` is never called: the backend comes back
unchanged, whatever the put-failure flag. -/
theorem claim_C2_invalid_body_500 (req : CreateShortURLRequest) (msg : String)
    (h : req.Bind = some msg) (src : List (Option Nat)) (host : String)
    (now : Int) (b : Backend) (putFails : Bool) :
    CreateRedirect req src host now b putFails
      = (HttpResponse.httpError 500 "Internal Server Error", b) := by
  simp [CreateRedirect, h, handleErrorResp]

/-- Witness for the amended C2: the `ftp` scheme is rejected by `Bind`
and the handler answers 500 with the backend untouched. -/
theorem claim_C2_witness :
    CreateRedirect ⟨"ftp://x.com", 0⟩ [] "host" 0 [] true
      = (HttpResponse.httpError 500 "Internal Server Error", []) :=
  claim_C2_invalid_body_500 ⟨"ftp://x.com", 0⟩ "url must use http or https scheme"
    rfl [] "host" 0 [] true

/-- Counterexample to C2 as stated: all three invalid bodies from the
spec's own examples are answered 400 according to the claim, but the
code answers 500. -/
theorem claim_C2_counterexample :
    (CreateRedirect ⟨"ftp://x.com", 0⟩ [] "host" 0 [] false).fst
        = HttpResponse.httpError 500 "Internal Server Error" ∧
    ((CreateRedirect ⟨"ftp://x.com", 0⟩ [] "host" 0 [] false).fst).statusCode ≠ 400 ∧
    (CreateRedirect ⟨"not-a-url", 0⟩ [] "host" 0 [] false).fst
        = HttpResponse.httpError 500 "Internal Server Error" ∧
    (CreateRedirect ⟨"http://", 0⟩ [] "host" 0 [] false).fst
        = HttpResponse.httpError 500 "Internal Server Error" :=
  ⟨rfl, by decide, rfl, rfl⟩

/-- **C3** (amended): when `List` succeeds with zero records,
`ListRedirects` responds 200 and not an error, but the body is
`{"urls": null}` — the `URLs` slice stays a Go nil slice, which
`encoding/json` marshals to JSON `null`, not to `[]`. -/
theorem claim_C3_empty_list_null (b : Backend)
    (h : clientList b false = Except.ok []) :
    ListRedirects b false
      = HttpResponse.jsonResp 200 (Json.obj [("urls", Json.null)]) := by
  simp [ListRedirects, h, marshalListResp]

/-- Witness for the amended C3 at the empty backend. -/
theorem claim_C3_witness :
    ListRedirects [] false
      = HttpResponse.jsonResp 200 (Json.obj [("urls", Json.null)]) :=
  claim_C3_empty_list_null [] rfl

/-- Counterexample to C3 as stated: on an empty store the body is
`{"urls": null}`, not `{"urls": []}`. -/
theorem claim_C3_counterexample :
    ListRedirects [] false
        = HttpResponse.jsonResp 200 (Json.obj [("urls", Json.null)]) ∧
    ListRedirects [] false
        ≠ HttpResponse.jsonResp 200 (Json.obj [("urls", Json.arr [])]) := by
  refine ⟨rfl, fun h => ?_⟩
  have h0 : ListRedirects [] false
      = HttpResponse.jsonResp 200 (Json.obj [("urls", Json.null)]) := rfl
  rw [h0] at h
  injection h with h1 h2
  injection h2 with h3
  injection h3 with h4 h5
  injection h4 with h6 h7
  exact Json.noConfusion h7

/-- **C4**: `Redirect` branch behaviour: a key failing the 16-character
pattern is answered 400 with the storage adapter never consulted (the
response and backend do not depend on the store at all); a storage
error is answered 500; an empty target URL is answered 404; a found
target URL is answered 302 with `Location` set to it. -/
theorem claim_C4_redirect_branches (key : String) (b : Backend) (gF uF : Bool) :
    (keyPatternMatch key = false →
      Redirect key b gF uF = (HttpResponse.httpError 400 "Invalid key format", b) ∧
      ∀ b2 gF2 uF2, (Redirect key b2 gF2 uF2).fst
          = HttpResponse.httpError 400 "Invalid key format") ∧
    (keyPatternMatch key = true →
      ∀ e b2, clientGet b key gF uF = (Except.error e, b2) →
        Redirect key b gF uF = (HttpResponse.httpError 500 "Internal Server Error", b2)) ∧
    (keyPatternMatch key = true →
      ∀ v b2, clientGet b key gF uF = (Except.ok v, b2) → v.url = "" →
        Redirect key b gF uF = (HttpResponse.notFoundPage, b2)) ∧
    (keyPatternMatch key = true →
      ∀ v b2, clientGet b key gF uF = (Except.ok v, b2) → v.url ≠ "" →
        Redirect key b gF uF = (HttpResponse.redirectFound v.url, b2)) := by
  refine ⟨?_, ?_, ?_, ?_⟩
  · intro hm
    exact ⟨by simp only [Redirect, if_pos hm],
      fun b2 g2 u2 => by simp only [Redirect, if_pos hm]⟩
  · intro hm e b2 hget
    have hno : ¬ keyPatternMatch key = false := by simp [hm]
    simp [Redirect, if_neg hno, hget]
  · intro hm v b2 hget hv
    have hno : ¬ keyPatternMatch key = false := by simp [hm]
    simp [Redirect, if_neg hno, hget, hv]
  · intro hm v b2 hget hv
    have hno : ¬ keyPatternMatch key = false := by simp [hm]
    simp [Redirect, if_neg hno, hget, hv]

/-- Witness for C4: one concrete instance of each branch — a short key
(400 without storage influence), a failing `GetItem` (500), an unknown
well-formed key (404), and a stored key (302 with the stored URL and
the access count bumped). -/
theorem claim_C4_witness :
    Redirect "short" [] false false
        = (HttpResponse.httpError 400 "Invalid key format", []) ∧
    Redirect "aaaaaaaaaaaaaaaa" [] true false
        = (HttpResponse.httpError 500 "Internal Server Error", []) ∧
    Redirect "aaaaaaaaaaaaaaaa" [] false false = (HttpResponse.notFoundPage, []) ∧
    Redirect "aaaaaaaaaaaaaaaa"
        [("aaaaaaaaaaaaaaaa", ⟨"aaaaaaaaaaaaaaaa", "https://e.com", 0, 7⟩)] false false
        = (HttpResponse.redirectFound "https://e.com",
           [("aaaaaaaaaaaaaaaa", ⟨"aaaaaaaaaaaaaaaa", "https://e.com", 1, 7⟩)]) :=
  ⟨((claim_C4_redirect_branches "short" [] false false).1 (by decide)).1,
   (claim_C4_redirect_branches "aaaaaaaaaaaaaaaa" [] true false).2.1 (by decide)
     StoreErr.getItemFailed [] rfl,
   (claim_C4_redirect_branches "aaaaaaaaaaaaaaaa" [] false false).2.2.1 (by decide)
     ⟨"", "", 0⟩ [] rfl rfl,
   (claim_C4_redirect_branches "aaaaaaaaaaaaaaaa"
       [("aaaaaaaaaaaaaaaa", ⟨"aaaaaaaaaaaaaaaa", "https://e.com", 0, 7⟩)] false
       false).2.2.2 (by decide)
     ⟨"aaaaaaaaaaaaaaaa", "https://e.com", 0⟩
     [("aaaaaaaaaaaaaaaa", ⟨"aaaaaaaaaaaaaaaa", "https://e.com", 1, 7⟩)] rfl
     (by decide)⟩

/-- **C5**: Every key returned by the key generator (when it does not
return an error) is a string of exactly 16 characters, each drawn from
the 62-character alphabet `[a-zA-Z0-9]`, i.e. it matches
`^[a-zA-Z0-9]{16}$`. -/
theorem claim_C5_generated_key_pattern (src : List (Option Nat)) (k : String)
    (h : generateKey src = GenResult.ok k) :
    k.toList.length = 16 ∧ (∀ c ∈ k.toList, isAlphanumChar c = true) ∧
      keyPatternMatch k = true := by
  obtain ⟨hlen, hall⟩ := genChars_ok_spec 16 src k h
  exact ⟨hlen, hall, generateKey_ok_matches h⟩

/-- Witness for C5 with a random source of sixteen zero draws. -/
theorem claim_C5_witness :
    ("aaaaaaaaaaaaaaaa" : String).toList.length = 16 ∧
    (∀ c ∈ ("aaaaaaaaaaaaaaaa" : String).toList, isAlphanumChar c = true) ∧
      keyPatternMatch "aaaaaaaaaaaaaaaa" = true :=
  claim_C5_generated_key_pattern (List.replicate 16 (some 0)) "aaaaaaaaaaaaaaaa" rfl

/-- **C6**: a `Get` on a key whose record is found increments the
backend `access_count` by exactly 1 as a side effect; if the increment
fails the `Get` still succeeds, returning the record as read before
the increment, with the backend unchanged. -/
theorem claim_C6_get_increments (b : Backend) (key : String) (it : URLItem)
    (h : lookupItem b key = some it) :
    clientGet b key false false
        = (Except.ok ⟨it.id, it.redirect_url, it.access_count⟩, incrAccess b key) ∧
    lookupItem (incrAccess b key) key
        = some { it with access_count := it.access_count + 1 } ∧
    clientGet b key false true
        = (Except.ok ⟨it.id, it.redirect_url, it.access_count⟩, b) := by
  refine ⟨by simp [clientGet, h], lookupItem_incrAccess_self b key it h,
    by simp [clientGet, h]⟩

/-- Witness for C6 at a one-record backend with `access_count = 3`:
the read returns 3 and stores 4; a failed increment still returns 3
and leaves the backend alone. -/
theorem claim_C6_witness :
    clientGet [("k", ⟨"k", "https://e.com", 3, 7⟩)] "k" false false
        = (Except.ok ⟨"k", "https://e.com", 3⟩,
           incrAccess [("k", ⟨"k", "https://e.com", 3, 7⟩)] "k") ∧
    lookupItem (incrAccess [("k", ⟨"k", "https://e.com", 3, 7⟩)] "k") "k"
        = some ⟨"k", "https://e.com", 4, 7⟩ ∧
    clientGet [("k", ⟨"k", "https://e.com", 3, 7⟩)] "k" false true
        = (Except.ok ⟨"k", "https://e.com", 3⟩, [("k", ⟨"k", "https://e.com", 3, 7⟩)]) :=
  claim_C6_get_increments [("k", ⟨"k", "https://e.com", 3, 7⟩)] "k"
    ⟨"k", "https://e.com", 3, 7⟩ rfl

/-- **C7**: `Put` writes a record with `access_count = 0` and
`created_at` equal to the current timestamp, unconditionally
overwriting any record under the same key (the backend `b` is
arbitrary, so in particular it may already hold the key), and leaving
every other key untouched. -/
theorem claim_C7_put_overwrites (b : Backend) (key value : String) (now : Int) :
    clientPut b key value now false
        = (Except.ok (), putItem b key ⟨key, value, 0, now⟩) ∧
    lookupItem (putItem b key ⟨key, value, 0, now⟩) key
        = some ⟨key, value, 0, now⟩ ∧
    ∀ k2, k2 ≠ key →
      lookupItem (putItem b key ⟨key, value, 0, now⟩) k2 = lookupItem b k2 := by
  exact ⟨rfl, lookupItem_putItem_self b key _,
    fun k2 h2 => lookupItem_putItem_ne b key k2 _ h2⟩

/-- Witness for C7 on a backend already holding the key with a
different record (`access_count = 9`): the old record is replaced by
the fresh zero-count one, and the other key is untouched. -/
theorem claim_C7_witness :
    clientPut [("k", ⟨"k", "https://old.com", 9, 1⟩), ("x", ⟨"x", "https://x.com", 2, 1⟩)]
        "k" "https://new.com" 5 false
        = (Except.ok (),
           putItem [("k", ⟨"k", "https://old.com", 9, 1⟩), ("x", ⟨"x", "https://x.com", 2, 1⟩)]
             "k" ⟨"k", "https://new.com", 0, 5⟩) ∧
    lookupItem (putItem [("k", ⟨"k", "https://old.com", 9, 1⟩), ("x", ⟨"x", "https://x.com", 2, 1⟩)]
        "k" ⟨"k", "https://new.com", 0, 5⟩) "k" = some ⟨"k", "https://new.com", 0, 5⟩ ∧
    lookupItem (putItem [("k", ⟨"k", "https://old.com", 9, 1⟩), ("x", ⟨"x", "https://x.com", 2, 1⟩)]
        "k" ⟨"k", "https://new.com", 0, 5⟩) "x"
      = lookupItem [("k", ⟨"k", "https://old.com", 9, 1⟩), ("x", ⟨"x", "https://x.com", 2, 1⟩)] "x" := by
  obtain ⟨h1, h2, h3⟩ := claim_C7_put_overwrites
    [("k", ⟨"k", "https://old.com", 9, 1⟩), ("x", ⟨"x", "https://x.com", 2, 1⟩)]
    "k" "https://new.com" 5
  exact ⟨h1, h2, h3 "x" (by decide)⟩

/-- **C8**: `DeleteRedirect` performs no key-format validation — the
key is an arbitrary string, in particular one that does not match the
16-character pattern or is absent from storage — and when the storage
`Delete` succeeds it responds 200 with
`{"message": "Redirect deleted successfully"}`. -/
theorem claim_C8_delete_idempotent (key : String) (b : Backend) :
    DeleteRedirect key b false
      = (HttpResponse.jsonResp 200
          (Json.obj [("message", Json.str "Redirect deleted successfully")]),
         eraseItem b key) := rfl

/-- **C9**: the `expires_in` field of a `CreateRedirect` body is inert:
two requests identical except for `expires_in` (same key source, clock,
host and backend) produce identical responses and identical backends. -/
theorem claim_C9_expiresIn_inert (u : String) (e1 e2 : Int)
    (src : List (Option Nat)) (host : String) (now : Int) (b : Backend)
    (putFails : Bool) :
    CreateRedirect ⟨u, e1⟩ src host now b putFails
      = CreateRedirect ⟨u, e2⟩ src host now b putFails := rfl

/-- **C10**: the key generator never indexes out of the bounds of its
62-character alphabet (every index is a value reduced modulo 62, and
the alphabet has exactly 62 characters), and on a random-source error
it returns the empty string together with the error, without partially
constructed output. -/
theorem claim_C10_generator_safe (src : List (Option Nat)) :
    generateKey src ≠ GenResult.oob ∧
      ∀ s, generateKey src = GenResult.srcErr s → s = "" :=
  ⟨genChars_ne_oob 16 src, fun s h => genChars_srcErr_empty 16 src s h⟩

/-- Witness for C10 at a random source that fails on the first draw:
no out-of-bounds access, and the string handed back with the error is
empty. -/
theorem claim_C10_witness :
    generateKey [none] ≠ GenResult.oob ∧ ("" : String) = "" :=
  ⟨(claim_C10_generator_safe [none]).1, (claim_C10_generator_safe [none]).2 "" rfl⟩

end Terse
